import Mathlib

set_option maxRecDepth 2048
set_option maxHeartbeats 1000000

/-!
Verification of the mutpos2vcf design: a converter from per-position
mutation-count records ("mutpos" lines) to VCF variant records.

The repository ships only packaging metadata (`setup.py`); the core pipeline
(parser, reference resolver, variant-call engine, VCF builder, stream writer)
is modelled here from the design document, faithfully to its words.  Each
definition carries a note saying which part of the design it embeds.
Numeric text processing is carried out over `List Char`, and allele fractions
are rational numbers built with `Rat.divInt`, so that every definition is
executable by the kernel on concrete inputs.
-/

deriving instance DecidableEq for Except

namespace Mutpos2Vcf

/-- Modelled from the spec: the configuration surface of the pipeline
(`min_depth`, `min_allele_fraction`, `min_supporting_count`, `sample_name`). -/
structure VarConfig where
  min_depth : Nat
  min_allele_fraction : ℚ
  min_supporting_count : Nat
  sample_name : String
deriving DecidableEq

/-- Modelled from the spec: one line of aggregated mutpos input.  `counts`
maps observed-allele symbols to non-negative integers. -/
structure MutposRecord where
  contig : String
  position : Nat
  depth : Nat
  counts : List (String × Nat)
deriving DecidableEq

/-- Modelled from the spec: the call decision produced by the Variant Call
Engine for one input record. -/
structure CallDecision where
  contig : String
  position : Nat
  ref_allele : String
  alt_alleles : List String
  allele_fractions : List (String × ℚ)
  depth : Nat
  is_call : Bool
deriving DecidableEq

/-- Modelled from the spec: one VCF data record with its fixed fields. -/
structure VcfRecord where
  chrom : String
  pos : Nat
  id : String
  ref : String
  alt : List String
  qual : String
  filter : String
  info : String
  format : String
  sample : String
deriving DecidableEq

/-- Modelled from the spec: `MalformedRecordError` carries the offending line
number and raw text. -/
structure MalformedRecordError where
  lineNumber : Nat
  rawText : String
deriving DecidableEq

/-- Modelled from the spec: reference-lookup failures of the Resolver. -/
inductive RefError where
  | unknownContig (contig : String)
  | positionOutOfRange (contig : String) (position span : Nat)
deriving DecidableEq

/-- Modelled from the spec: `UnsortedInputError`, raised by the Stream Writer
when a record arrives out of order. -/
structure UnsortedInputError where
  contig : String
  position : Nat
deriving DecidableEq

/-- Modelled from the spec: the fatal error classes of the pipeline. -/
inductive PipeError where
  | malformed (e : MalformedRecordError)
  | refLookup (e : RefError)
  | unsorted (e : UnsortedInputError)
deriving DecidableEq

/-! ### Mutpos Record Parser -/

/-- A blank character for the purpose of blank-line detection. -/
def isBlankChar (ch : Char) : Bool := ch == ' ' || ch == '\t' || ch == '\r'

/-- Modelled from the spec: blank lines are skipped without error. -/
def isBlankLine (cs : List Char) : Bool := cs.all isBlankChar

/-- Modelled from the spec: comment lines (conventionally prefixed with a
hash mark) are skipped without error. -/
def isCommentLine (cs : List Char) : Bool :=
  match cs with
  | [] => false
  | ch :: _ => ch == '#'

/-- A line the Parser skips (blank or comment). -/
def skippable (raw : String) : Bool := isBlankLine raw.data || isCommentLine raw.data

/-- The numeric value of a decimal digit character, if it is one. -/
def digitVal? (ch : Char) : Option Nat :=
  if '0' ≤ ch && ch ≤ '9' then some (ch.toNat - '0'.toNat) else none

/-- Accumulate decimal digits into a natural number; fails on a non-digit. -/
def natFromDigits : List Char → Nat → Option Nat
  | [], acc => some acc
  | ch :: rest, acc =>
    match digitVal? ch with
    | none => none
    | some d => natFromDigits rest (acc * 10 + d)

/-- Parse a non-empty all-digit field as a non-negative integer. -/
def parseNat (cs : List Char) : Option Nat :=
  if cs.isEmpty then none else natFromDigits cs 0

/-- Split a line into tab-delimited fields, preserving empty fields. -/
def splitTabs : List Char → List (List Char)
  | [] => [[]]
  | ch :: rest =>
    if ch = '\t' then [] :: splitTabs rest
    else
      match splitTabs rest with
      | [] => [[ch]]
      | f :: fs => (ch :: f) :: fs

/-- The tab-delimited fields of a raw line. -/
def fields (raw : String) : List String := (splitTabs raw.data).map String.mk

/-- Validity of the parsed column values of one nine-column line: the contig
is non-empty, every numeric column parsed as a non-negative integer, and the
position is positive. -/
def lineValidBits (c : String) (o1 o2 o3 o4 o5 o6 o7 o8 : Option Nat) : Bool :=
  c != "" && o1.isSome && o2.isSome && o3.isSome && o4.isSome && o5.isSome &&
    o6.isSome && o7.isSome && o8.isSome && o1.getD 0 != 0

/-- Modelled from the spec: a line is valid when it has the nine columns
`contig, position, depth, count_A, count_C, count_G, count_T, count_ins,
count_del`, the contig is non-empty, the position is a positive integer, and
depth and every count are non-negative integers. -/
def lineValid (raw : String) : Bool :=
  if (fields raw).length = 9 then
    lineValidBits ((fields raw).getD 0 "")
      (parseNat ((fields raw).getD 1 "").data) (parseNat ((fields raw).getD 2 "").data)
      (parseNat ((fields raw).getD 3 "").data) (parseNat ((fields raw).getD 4 "").data)
      (parseNat ((fields raw).getD 5 "").data) (parseNat ((fields raw).getD 6 "").data)
      (parseNat ((fields raw).getD 7 "").data) (parseNat ((fields raw).getD 8 "").data)
  else false

/-- Assemble a `MutposRecord` from the parsed column values of a nine-column
line, failing with `MalformedRecordError` when a numeric column did not
parse, the contig is empty, or the position is zero. -/
def parseFields (lineNumber : Nat) (raw c : String) (o1 o2 o3 o4 o5 o6 o7 o8 : Option Nat) :
    Except MalformedRecordError (Option MutposRecord) :=
  match o1, o2, o3, o4, o5, o6, o7, o8 with
  | some posv, some dep, some na, some nc, some ng, some nt, some ni, some nd =>
    if c = "" ∨ posv = 0 then .error ⟨lineNumber, raw⟩
    else
      .ok (some ⟨c, posv, dep,
        [("A", na), ("C", nc), ("G", ng), ("T", nt), ("INS", ni), ("DEL", nd)]⟩)
  | _, _, _, _, _, _, _, _ => .error ⟨lineNumber, raw⟩

/-- Modelled from the spec: the Parser's treatment of one input line.  Blank
and comment lines are skipped (`none`); a line violating validation fails
with `MalformedRecordError` carrying the line number and raw text; otherwise
a `MutposRecord` is produced. -/
def parseLine (lineNumber : Nat) (raw : String) :
    Except MalformedRecordError (Option MutposRecord) :=
  if skippable raw then .ok none
  else if (fields raw).length = 9 then
    parseFields lineNumber raw ((fields raw).getD 0 "")
      (parseNat ((fields raw).getD 1 "").data) (parseNat ((fields raw).getD 2 "").data)
      (parseNat ((fields raw).getD 3 "").data) (parseNat ((fields raw).getD 4 "").data)
      (parseNat ((fields raw).getD 5 "").data) (parseNat ((fields raw).getD 6 "").data)
      (parseNat ((fields raw).getD 7 "").data) (parseNat ((fields raw).getD 8 "").data)
  else .error ⟨lineNumber, raw⟩

/-! ### Reference Context Resolver -/

/-- Modelled from the spec: the indexed reference-sequence collaborator,
as a finite association of contig names to base strings. -/
structure RefIndex where
  contigs : List (String × String)
deriving DecidableEq

/-- First association of a contig name in the index. -/
def assocFind : List (String × String) → String → Option String
  | [], _ => none
  | (n, s) :: rest, c => if n = c then some s else assocFind rest c

/-- Modelled from the spec: the collaborator's `has_contig`. -/
def hasContig (ref : RefIndex) (c : String) : Bool := (assocFind ref.contigs c).isSome

/-- The stored sequence of a contig (empty when absent). -/
def refSeq (ref : RefIndex) (c : String) : String := (assocFind ref.contigs c).getD ""

/-- Modelled from the spec: the collaborator's `contig_length`. -/
def contigLength (ref : RefIndex) (c : String) : Nat := (refSeq ref c).length

/-- Modelled from the spec: `resolve(contig, position, span)` returns the
reference bases at the 1-based locus, failing with `UnknownContigError` when
the contig is absent and with `PositionOutOfRangeError` when
`position + span - 1` exceeds the contig length. -/
def resolve (ref : RefIndex) (contig : String) (position span : Nat) :
    Except RefError String :=
  match assocFind ref.contigs contig with
  | none => .error (.unknownContig contig)
  | some seq =>
    if seq.length < position + span - 1 then
      .error (.positionOutOfRange contig position span)
    else
      .ok (String.mk ((seq.data.drop (position - 1)).take span))

/-! ### Variant Call Engine -/

/-- Modelled from the spec: `fraction = count / depth`, as a rational. -/
def fraction (count depth : Nat) : ℚ := Rat.divInt count depth

/-- Modelled from the spec: an allele is a candidate if
`fraction ≥ min_allele_fraction` and `count ≥ min_supporting_count` and
`depth ≥ min_depth`. -/
def isCandidate (cfg : VarConfig) (depth count : Nat) : Bool :=
  decide (cfg.min_allele_fraction ≤ fraction count depth) &&
  decide (cfg.min_supporting_count ≤ count) &&
  decide (cfg.min_depth ≤ depth)

/-- Ordering of qualifying alleles: descending fraction, ties broken by
ascending lexicographic order of the allele symbol. -/
def altBefore (x y : String × ℚ) : Prop :=
  y.2 < x.2 ∨ (x.2 = y.2 ∧ x.1.data ≤ y.1.data)

instance : DecidableRel altBefore := fun x y => by
  unfold altBefore
  exact instDecidableOr

/-- Modelled from the spec: deterministic ordering of multi-allelic
candidates. -/
def sortAlts (l : List (String × ℚ)) : List (String × ℚ) :=
  List.insertionSort altBefore l

/-- Modelled from the spec: the Variant Call Engine's decision for one
record.  A zero-depth position is non-callable and emits `is_call = false`
without computing any fraction; otherwise every non-reference allele symbol
with non-zero count is tested against the thresholds, qualifying alleles are
ordered by descending fraction with lexicographic tie-break, and `is_call`
holds exactly when at least one allele qualifies. -/
def call (cfg : VarConfig) (rec : MutposRecord) (refBase : String) : CallDecision :=
  if rec.depth = 0 then
    { contig := rec.contig, position := rec.position, ref_allele := refBase,
      alt_alleles := [], allele_fractions := [], depth := rec.depth, is_call := false }
  else
    let qualifying := rec.counts.filter fun p =>
      p.1 != refBase && p.2 != 0 && isCandidate cfg rec.depth p.2
    let sorted := sortAlts (qualifying.map fun p => (p.1, fraction p.2 rec.depth))
    { contig := rec.contig, position := rec.position, ref_allele := refBase,
      alt_alleles := sorted.map Prod.fst, allele_fractions := sorted,
      depth := rec.depth, is_call := !sorted.isEmpty }

/-! ### VCF Record Builder -/

/-- Left-pad a numeral with zeros to a given width. -/
def padZeros (s : String) (k : Nat) : String :=
  String.mk (List.replicate (k - s.length) '0') ++ s

/-- Render a non-negative rational as a decimal numeral when its denominator
divides a small power of ten, and as `num/den` otherwise. -/
def fmtFrac (q : ℚ) : String :=
  match (List.range 10).find? (fun k => 10 ^ k % q.den == 0) with
  | none => toString q.num.toNat ++ "/" ++ toString q.den
  | some k =>
    if k = 0 then toString q.num.toNat
    else
      let m := q.num.toNat * (10 ^ k / q.den)
      toString (m / 10 ^ k) ++ "." ++ padZeros (toString (m % 10 ^ k)) k

/-- Comma-join a list of rendered values. -/
def joinComma (xs : List String) : String := String.intercalate "," xs

/-- Modelled from the spec: the VCF Record Builder.  CHROM and POS are
copied, REF and ALT come from the decision, QUAL is the VCF unknown marker,
FILTER is `PASS` when `is_call` holds, INFO carries depth and the per-allele
fractions as key=value pairs, and the sample FORMAT field carries
genotype-like allele-fraction data. -/
def build (d : CallDecision) : VcfRecord :=
  { chrom := d.contig, pos := d.position, id := ".",
    ref := d.ref_allele, alt := d.alt_alleles, qual := ".",
    filter := if d.is_call then "PASS" else ".",
    info := "DP=" ++ toString d.depth ++ ";AF=" ++
      joinComma (d.allele_fractions.map fun p => fmtFrac p.2),
    format := "GT:AF",
    sample := "./.:" ++ joinComma (d.allele_fractions.map fun p => fmtFrac p.2) }

/-- The ALT column of a record (`.` when empty). -/
def renderAlt (alts : List String) : String :=
  if alts.isEmpty then "." else joinComma alts

/-- Render one VCF data record as a tab-delimited line. -/
def renderRecord (r : VcfRecord) : String :=
  String.intercalate "\t"
    [r.chrom, toString r.pos, r.id, r.ref, renderAlt r.alt, r.qual, r.filter,
     r.info, r.format, r.sample]

/-! ### VCF Stream Writer -/

/-- Modelled from the spec: the Writer's running state, the contigs in the
order first encountered and the coordinate of the last written record. -/
structure WriterState where
  seen : List String
  last : Option (String × Nat)
deriving DecidableEq

/-- The Writer's state before any record is written. -/
def initState : WriterState := ⟨[], none⟩

/-- Whether the incoming record respects non-decreasing
(contig-first-seen-order, position) order with respect to the state. -/
def okToWrite (st : WriterState) (r : VcfRecord) : Bool :=
  match st.last with
  | none => true
  | some (c₀, p₀) =>
    if r.chrom = c₀ then decide (p₀ ≤ r.pos) else decide (r.chrom ∉ st.seen)

/-- Modelled from the spec: `write_record` emits the record unchanged and
advances the state, or fails with `UnsortedInputError` when the record
violates the ordering precondition; it never re-orders or buffers. -/
def writeRecord (st : WriterState) (r : VcfRecord) :
    Except UnsortedInputError (WriterState × VcfRecord) :=
  if okToWrite st r then
    .ok ({ seen := if r.chrom ∈ st.seen then st.seen else st.seen ++ [r.chrom],
           last := some (r.chrom, r.pos) }, r)
  else
    .error ⟨r.chrom, r.pos⟩

/-- Write a stream of records through the Writer, returning the emitted
records in order. -/
def writeAll (st : WriterState) : List VcfRecord → Except UnsortedInputError (List VcfRecord)
  | [] => .ok []
  | r :: rs =>
    match writeRecord st r with
    | .error e => .error e
    | .ok (st', r') =>
      match writeAll st' rs with
      | .error e => .error e
      | .ok out => .ok (r' :: out)

/-- Index of the first occurrence of a contig in the first-seen list (the
list length when absent, so unseen contigs sort after all seen ones). -/
def firstSeenIdx : List String → String → Nat
  | [], _ => 0
  | s :: rest, c => if s = c then 0 else firstSeenIdx rest c + 1

/-- Strict ordering of (contig-first-seen-order, position) keys. -/
def keyLt (seen : List String) (c₁ : String) (p₁ : Nat) (c₂ : String) (p₂ : Nat) : Prop :=
  firstSeenIdx seen c₁ < firstSeenIdx seen c₂ ∨
    (firstSeenIdx seen c₁ = firstSeenIdx seen c₂ ∧ p₁ < p₂)

/-- An incoming record violates the Writer's precondition when its key is
strictly below the key of the previously written record. -/
def violatesOrder (st : WriterState) (r : VcfRecord) : Prop :=
  match st.last with
  | none => False
  | some (c₀, p₀) => keyLt st.seen r.chrom r.pos c₀ p₀

/-- Well-formedness of a Writer state: the first-seen list has no duplicates
and the last written contig is its most recent entry. -/
def WriterWF (st : WriterState) : Prop :=
  st.seen.Nodup ∧ ∀ c₀ p₀, st.last = some (c₀, p₀) → ∃ pre, st.seen = pre ++ [c₀]

/-! ### Pipeline -/

/-- Modelled from the spec: process one parsed record — resolve the
reference context, decide, and build a VCF record exactly when `is_call`
holds. -/
def processRecord (cfg : VarConfig) (ref : RefIndex) (rec : MutposRecord) :
    Except PipeError (Option VcfRecord) :=
  match resolve ref rec.contig rec.position 1 with
  | .error e => .error (.refLookup e)
  | .ok refBase =>
    let d := call cfg rec refBase
    if d.is_call then .ok (some (build d)) else .ok none

/-- Process one raw input line end to end (parse, resolve, call, build). -/
def callLine (cfg : VarConfig) (ref : RefIndex) (lineNumber : Nat) (raw : String) :
    Except PipeError (Option VcfRecord) :=
  match parseLine lineNumber raw with
  | .error e => .error (.malformed e)
  | .ok none => .ok none
  | .ok (some rec) => processRecord cfg ref rec

/-- Process the input lines in order, collecting the built records. -/
def callLines (cfg : VarConfig) (ref : RefIndex) : Nat → List String → Except PipeError (List VcfRecord)
  | _, [] => .ok []
  | lineNumber, raw :: rest =>
    match callLine cfg ref lineNumber raw with
    | .error e => .error e
    | .ok r? =>
      match callLines cfg ref (lineNumber + 1) rest with
      | .error e => .error e
      | .ok out =>
        match r? with
        | none => .ok out
        | some r => .ok (r :: out)

/-- Modelled from the spec: the VCF header lines. -/
def vcfHeader (ref : RefIndex) (sampleName : String) : List String :=
  "##fileformat=VCFv4.2" ::
    (ref.contigs.map fun p => "##contig=<ID=" ++ p.1 ++ ",length=" ++ toString p.2.length ++ ">") ++
    ["#CHROM\tPOS\tID\tREF\tALT\tQUAL\tFILTER\tINFO\tFORMAT\t" ++ sampleName]

/-- The full pipeline on a list of raw input lines: parse, call, build, and
write every record through the Stream Writer, returning the rendered data
lines. -/
def runPipeline (cfg : VarConfig) (ref : RefIndex) (lines : List String) :
    Except PipeError (List String) :=
  match callLines cfg ref 1 lines with
  | .error e => .error e
  | .ok recs =>
    match writeAll initState recs with
    | .error e => .error (.unsorted e)
    | .ok written => .ok (written.map renderRecord)

/-- The byte-level output stream: header followed by the data lines. -/
def pipelineOutput (cfg : VarConfig) (ref : RefIndex) (lines : List String) :
    Except PipeError String :=
  match runPipeline cfg ref lines with
  | .error e => .error e
  | .ok ds => .ok (String.intercalate "\n" (vcfHeader ref cfg.sample_name ++ ds))

/-! ### Packaging script (`src/setup.py`) -/

/-- The filesystem as seen by `setup.py`: whether `README.md` exists and,
when it does, its text. -/
structure SetupEnv where
  readmeText : Option String
deriving DecidableEq

/-- The keyword arguments `setup.py` passes to `setuptools.setup` that
depend on the environment, together with the fixed metadata it always
passes. -/
structure SetupArgs where
  name : String
  version : String
  long_description : String
  long_description_content_type : String
  scripts : List String
deriving DecidableEq

/-- Outcome of executing `setup.py`: either the `Path('README.md').read_text()`
argument expression raises a file-not-found error, or `setuptools.setup` is
invoked with the assembled arguments. -/
inductive SetupOutcome where
  | fileNotFound (path : String)
  | setupCalled (args : SetupArgs)
deriving DecidableEq

/-- `Path(path).read_text()`: returns the file's text or fails when the file
does not exist.  The script only ever reads `README.md`. -/
def readText (env : SetupEnv) (path : String) : Except String String :=
  if path = "README.md" then
    match env.readmeText with
    | none => .error path
    | some t => .ok t
  else .error path

/-- Embedding of `src/setup.py`: the `long_description` argument is the
result of reading `README.md` from the current working directory, evaluated
before `setuptools.setup` is invoked, so a missing `README.md` raises before
`setup` is ever called. -/
def runSetupScript (env : SetupEnv) : SetupOutcome :=
  match readText env "README.md" with
  | .error p => .fileNotFound p
  | .ok txt =>
    .setupCalled
      { name := "mutpos2vcf", version := "0.1.0", long_description := txt,
        long_description_content_type := "text/markdown",
        scripts := ["mutpos2vcf"] }

/-! ### Concrete fixtures used by the scenario claims -/

/-- The configuration of the concrete threshold scenario:
`min_depth = 10`, `min_allele_fraction = 0.8`, `min_supporting_count = 5`. -/
def cfgScenario : VarConfig := ⟨10, Rat.divInt 4 5, 5, "sample1"⟩

/-- A reference with a single contig `chr1` of one hundred `A` bases. -/
def refScenario : RefIndex := ⟨[("chr1", String.mk (List.replicate 100 'A'))]⟩

/-- The configuration of the multi-allelic ordering scenario
(`min_allele_fraction = 0.2`). -/
def cfgTie : VarConfig := ⟨1, Rat.divInt 1 5, 1, "sample1"⟩

/-- A record used to exhibit that the Writer accepts equal positions on the
same contig. -/
def dupRecord : VcfRecord :=
  ⟨"chr1", 100, ".", "A", ["T"], ".", "PASS", "DP=50;AF=0.9", "GT:AF", "./.:0.9"⟩

/-- A record at an earlier position on `chr1`, used to exhibit an ordering
violation. -/
def earlierRecord : VcfRecord :=
  ⟨"chr1", 50, ".", "A", ["T"], ".", "PASS", "DP=50;AF=0.9", "GT:AF", "./.:0.9"⟩

/-- The record of the boundary scenario: forty supporting read families at
depth fifty, exactly the 0.8 allele-fraction threshold. -/
def boundaryRecord : MutposRecord :=
  ⟨"chr1", 100, 50, [("A", 0), ("C", 0), ("G", 0), ("T", 40), ("INS", 0), ("DEL", 0)]⟩

/-! ## Helper lemmas -/

/-- Two entries of an association list with the same key coincide when the
keys are duplicate-free. -/
theorem nodup_key_unique {l : List (String × Nat)} {a : String} {c c' : Nat}
    (hnodup : (l.map Prod.fst).Nodup) (h1 : (a, c) ∈ l) (h2 : (a, c') ∈ l) : c = c' := by
  induction l with
  | nil => cases h1
  | cons x xs ih =>
    rcases List.mem_cons.mp h1 with h1 | h1 <;> rcases List.mem_cons.mp h2 with h2 | h2
    · rw [← h1] at h2; exact (Prod.mk.injEq _ _ _ _ ▸ h2).2.symm
    · exfalso
      have : a ∈ xs.map Prod.fst := List.mem_map.mpr ⟨(a, c'), h2, rfl⟩
      rw [← h1] at hnodup
      exact (List.nodup_cons.mp hnodup).1 this
    · exfalso
      have : a ∈ xs.map Prod.fst := List.mem_map.mpr ⟨(a, c), h1, rfl⟩
      rw [← h2] at hnodup
      exact (List.nodup_cons.mp hnodup).1 this
    · exact ih (List.nodup_cons.mp hnodup).2 h1 h2

/-- The fraction of the engine is the rational quotient of count by depth. -/
theorem fraction_eq_div (c d : Nat) : fraction c d = (c : ℚ) / (d : ℚ) := by
  unfold fraction
  rw [Rat.divInt_eq_div]
  push_cast
  ring

/-- Equal character data makes equal strings. -/
theorem string_data_inj {s t : String} (h : s.data = t.data) : s = t :=
  congrArg String.mk h

/-- `parseFields` fails exactly when the parsed column values violate
validation, and the error carries the given line context. -/
theorem parseFields_error_iff (n : Nat) (raw c : String)
    (o1 o2 o3 o4 o5 o6 o7 o8 : Option Nat) (e : MalformedRecordError) :
    parseFields n raw c o1 o2 o3 o4 o5 o6 o7 o8 = .error e ↔
      lineValidBits c o1 o2 o3 o4 o5 o6 o7 o8 = false ∧ e = ⟨n, raw⟩ := by
  cases o1 with
  | none =>
    rw [show parseFields n raw c none o2 o3 o4 o5 o6 o7 o8 = .error ⟨n, raw⟩ from rfl]
    simp [lineValidBits, eq_comm]
  | some v1 =>
  cases o2 with
  | none =>
    rw [show parseFields n raw c (some v1) none o3 o4 o5 o6 o7 o8 = .error ⟨n, raw⟩ from rfl]
    simp [lineValidBits, eq_comm]
  | some v2 =>
  cases o3 with
  | none =>
    rw [show parseFields n raw c (some v1) (some v2) none o4 o5 o6 o7 o8 =
      .error ⟨n, raw⟩ from rfl]
    simp [lineValidBits, eq_comm]
  | some v3 =>
  cases o4 with
  | none =>
    rw [show parseFields n raw c (some v1) (some v2) (some v3) none o5 o6 o7 o8 =
      .error ⟨n, raw⟩ from rfl]
    simp [lineValidBits, eq_comm]
  | some v4 =>
  cases o5 with
  | none =>
    rw [show parseFields n raw c (some v1) (some v2) (some v3) (some v4) none o6 o7 o8 =
      .error ⟨n, raw⟩ from rfl]
    simp [lineValidBits, eq_comm]
  | some v5 =>
  cases o6 with
  | none =>
    rw [show parseFields n raw c (some v1) (some v2) (some v3) (some v4) (some v5) none o7 o8 =
      .error ⟨n, raw⟩ from rfl]
    simp [lineValidBits, eq_comm]
  | some v6 =>
  cases o7 with
  | none =>
    rw [show parseFields n raw c (some v1) (some v2) (some v3) (some v4) (some v5) (some v6)
      none o8 = .error ⟨n, raw⟩ from rfl]
    simp [lineValidBits, eq_comm]
  | some v7 =>
  cases o8 with
  | none =>
    rw [show parseFields n raw c (some v1) (some v2) (some v3) (some v4) (some v5) (some v6)
      (some v7) none = .error ⟨n, raw⟩ from rfl]
    simp [lineValidBits, eq_comm]
  | some v8 =>
  rw [show parseFields n raw c (some v1) (some v2) (some v3) (some v4) (some v5) (some v6)
      (some v7) (some v8) =
      (if c = "" ∨ v1 = 0 then .error ⟨n, raw⟩
       else .ok (some ⟨c, v1, v2,
         [("A", v3), ("C", v4), ("G", v5), ("T", v6), ("INS", v7), ("DEL", v8)]⟩)) from rfl]
  by_cases hce : c = "" ∨ v1 = 0
  · rw [if_pos hce]
    rcases hce with h | h <;> simp [lineValidBits, h, eq_comm]
  · rw [if_neg hce]
    push_neg at hce
    simp [lineValidBits, bne_iff_ne, hce.1, hce.2]

instance : IsTotal (String × ℚ) altBefore := by
  constructor
  intro x y
  rcases lt_trichotomy x.2 y.2 with h | h | h
  · exact Or.inr (Or.inl h)
  · rcases le_total x.1.data y.1.data with hle | hle
    · exact Or.inl (Or.inr ⟨h, hle⟩)
    · exact Or.inr (Or.inr ⟨h.symm, hle⟩)
  · exact Or.inl (Or.inl h)

instance : IsTrans (String × ℚ) altBefore := by
  constructor
  intro x y z hxy hyz
  rcases hxy with h1 | ⟨h1, h1d⟩ <;> rcases hyz with h2 | ⟨h2, h2d⟩
  · exact Or.inl (h2.trans h1)
  · exact Or.inl (h2 ▸ h1)
  · exact Or.inl (h1 ▸ h2)
  · exact Or.inr ⟨h1.trans h2, h1d.trans h2d⟩

/-- A successful `writeRecord` emits the record unchanged, advances `last`
to its coordinate, and certifies the ordering check. -/
theorem writeRecord_ok {st : WriterState} {r : VcfRecord} {st' : WriterState} {r' : VcfRecord}
    (h : writeRecord st r = .ok (st', r')) :
    r' = r ∧ st'.last = some (r.chrom, r.pos) ∧ okToWrite st r = true := by
  unfold writeRecord at h
  by_cases hok : okToWrite st r = true
  · rw [if_pos hok] at h
    injection h with h
    obtain ⟨h1, h2⟩ := Prod.mk.injEq .. ▸ h
    exact ⟨h2.symm, by rw [← h1], hok⟩
  · rw [if_neg hok] at h
    cases h

/-- A failing `writeRecord` reports `UnsortedInputError` without emitting. -/
theorem writeRecord_error {st : WriterState} {r : VcfRecord}
    (h : okToWrite st r = false) : writeRecord st r = .error ⟨r.chrom, r.pos⟩ := by
  unfold writeRecord
  rw [if_neg (by simp [h])]

/-- When the ordering check passes and the last written record shares the
contig, the position is non-decreasing. -/
theorem okToWrite_le {st : WriterState} {r : VcfRecord} {c₀ : String} {p₀ : Nat}
    (hok : okToWrite st r = true) (hlast : st.last = some (c₀, p₀))
    (hc : r.chrom = c₀) : p₀ ≤ r.pos := by
  unfold okToWrite at hok
  rw [hlast] at hok
  dsimp only at hok
  rw [if_pos hc] at hok
  exact of_decide_eq_true hok

/-- The Writer emits successfully written streams verbatim: no re-ordering,
no buffering, no dropping. -/
theorem writeAll_ok_eq : ∀ (st : WriterState) (rs out : List VcfRecord),
    writeAll st rs = .ok out → out = rs := by
  intro st rs
  induction rs generalizing st with
  | nil => intro out h; cases h; rfl
  | cons r rest ih =>
    intro out h
    unfold writeAll at h
    cases hw : writeRecord st r with
    | error e => rw [hw] at h; cases h
    | ok pr =>
      obtain ⟨st', r'⟩ := pr
      rw [hw] at h
      dsimp only at h
      cases hrest : writeAll st' rest with
      | error e => rw [hrest] at h; cases h
      | ok out' =>
        rw [hrest] at h
        injection h with h
        rw [← h, (writeRecord_ok hw).1, ih st' out' hrest]

/-- Records accepted in one `writeAll` run are chained in non-decreasing
position order per contig, and the head respects the incoming state. -/
theorem writeAll_chain : ∀ (st : WriterState) (rs out : List VcfRecord),
    writeAll st rs = .ok out →
    List.Chain' (fun a b => a.chrom = b.chrom → a.pos ≤ b.pos) rs ∧
      (∀ c₀ p₀ r, st.last = some (c₀, p₀) → rs.head? = some r → r.chrom = c₀ → p₀ ≤ r.pos) := by
  intro st rs
  induction rs generalizing st with
  | nil => intro out _; exact ⟨List.chain'_nil, fun c₀ p₀ r _ h => by cases h⟩
  | cons r rest ih =>
    intro out h
    unfold writeAll at h
    cases hw : writeRecord st r with
    | error e => rw [hw] at h; cases h
    | ok pr =>
      obtain ⟨st', r'⟩ := pr
      rw [hw] at h
      dsimp only at h
      cases hrest : writeAll st' rest with
      | error e => rw [hrest] at h; cases h
      | ok out' =>
        obtain ⟨hr, hlast, hok⟩ := writeRecord_ok hw
        obtain ⟨hchain, hhead⟩ := ih st' out' hrest
        refine ⟨List.chain'_cons'.mpr ⟨?_, hchain⟩, ?_⟩
        · intro b hb hcb
          exact hhead r.chrom r.pos b hlast hb hcb.symm
        · intro c₀ p₀ r₂ hst hhd hc
          rw [List.head?_cons] at hhd
          injection hhd with hhd
          rw [← hhd] at hc ⊢
          exact okToWrite_le hok hst hc

/-- `firstSeenIdx` of an absent contig is the list length. -/
theorem firstSeenIdx_of_not_mem : ∀ (l : List String) (c : String), c ∉ l →
    firstSeenIdx l c = l.length := by
  intro l c
  induction l with
  | nil => intro _; rfl
  | cons s rest ih =>
    intro h
    have hs : s ≠ c := fun hh => h (hh ▸ List.mem_cons_self s rest)
    simp only [firstSeenIdx, if_neg hs, List.length_cons]
    rw [ih (fun hh => h (List.mem_cons_of_mem s hh))]

/-- `firstSeenIdx` of a present contig is below the list length. -/
theorem firstSeenIdx_lt_of_mem : ∀ (l : List String) (c : String), c ∈ l →
    firstSeenIdx l c < l.length := by
  intro l c
  induction l with
  | nil => intro h; cases h
  | cons s rest ih =>
    intro h
    by_cases hs : s = c
    · simp [firstSeenIdx, hs]
    · rcases List.mem_cons.mp h with h | h
      · exact absurd h.symm hs
      · simpa [firstSeenIdx, hs] using ih h

/-- `firstSeenIdx` looks only at the first occurrence: appending on the
right does not move a contig already present. -/
theorem firstSeenIdx_append_of_mem : ∀ (l l' : List String) (c : String), c ∈ l →
    firstSeenIdx (l ++ l') c = firstSeenIdx l c := by
  intro l l' c
  induction l with
  | nil => intro h; cases h
  | cons s rest ih =>
    intro h
    by_cases hs : s = c
    · simp [firstSeenIdx, hs]
    · rcases List.mem_cons.mp h with h | h
      · exact absurd h.symm hs
      · simp [firstSeenIdx, hs, ih h]

/-- The most recently first-seen contig sits at index `pre.length`. -/
theorem firstSeenIdx_last : ∀ (pre : List String) (c₀ : String), c₀ ∉ pre →
    firstSeenIdx (pre ++ [c₀]) c₀ = pre.length := by
  intro pre c₀
  induction pre with
  | nil => intro _; simp [firstSeenIdx]
  | cons s rest ih =>
    intro h
    have hs : s ≠ c₀ := fun hh => h (hh ▸ List.mem_cons_self s rest)
    simp only [List.cons_append, firstSeenIdx, if_neg hs, List.length_cons]
    show firstSeenIdx (rest ++ [c₀]) c₀ + 1 = rest.length + 1
    rw [ih (fun hh => h (List.mem_cons_of_mem s hh))]

/-! ## Claim theorems -/

/-- C2: the input line `chr1 100 50 0 0 0 45 0 0` with reference base `A`
at `chr1:100` and configuration `min_depth = 10`,
`min_allele_fraction = 0.8`, `min_supporting_count = 5` makes the pipeline
emit exactly the VCF data record
`chr1 100 . A T . PASS DP=50;AF=0.9 GT:AF ./.:0.9`. -/
theorem scenario_line_emits_expected_record :
    runPipeline cfgScenario refScenario ["chr1\t100\t50\t0\t0\t0\t45\t0\t0"] =
      .ok ["chr1\t100\t.\tA\tT\t.\tPASS\tDP=50;AF=0.9\tGT:AF\t./.:0.9"] := by
  decide

/-- C3: a record with `depth = 0` is non-callable: the engine emits a
decision with `is_call = false`, the pipeline produces no VCF record for the
position, and no error is raised. -/
theorem depth_zero_not_callable (cfg : VarConfig) (ref : RefIndex) (rec : MutposRecord)
    (refBase : String) (hd : rec.depth = 0)
    (hres : resolve ref rec.contig rec.position 1 = .ok refBase) :
    (call cfg rec refBase).is_call = false ∧ processRecord cfg ref rec = .ok none := by
  have hcall : call cfg rec refBase =
      ⟨rec.contig, rec.position, refBase, [], [], rec.depth, false⟩ := by
    unfold call
    rw [if_pos hd]
  refine ⟨by rw [hcall], ?_⟩
  unfold processRecord
  rw [hres]
  simp [hcall]

/-- Witness for C3 at a concrete zero-depth record. -/
theorem depth_zero_not_callable_witness :
    (call cfgScenario ⟨"chr1", 100, 0, [("T", 45)]⟩ "A").is_call = false ∧
      processRecord cfgScenario refScenario ⟨"chr1", 100, 0, [("T", 45)]⟩ = .ok none :=
  depth_zero_not_callable cfgScenario refScenario ⟨"chr1", 100, 0, [("T", 45)]⟩ "A"
    (by decide) (by decide)

/-- C5 counterexample: the Writer accepts two consecutive records on the
same contig with equal positions, so the strictly-greater claim fails on
the emitted stream. -/
theorem equal_positions_both_written :
    writeAll initState [dupRecord, dupRecord] = .ok [dupRecord, dupRecord] ∧
      dupRecord.chrom = dupRecord.chrom ∧ ¬ dupRecord.pos < dupRecord.pos := by
  refine ⟨by decide, rfl, by decide⟩

/-- C5 amended: for every successfully written stream, consecutive emitted
records on the same contig have non-decreasing positions, and the stream is
emitted verbatim. -/
theorem written_records_nondecreasing (rs out : List VcfRecord)
    (h : writeAll initState rs = .ok out) :
    out = rs ∧ List.Chain' (fun a b => a.chrom = b.chrom → a.pos ≤ b.pos) out := by
  have he := writeAll_ok_eq initState rs out h
  refine ⟨he, ?_⟩
  rw [he]
  exact (writeAll_chain initState rs out h).1

/-- Witness for the amended C5 on a concrete two-record stream. -/
theorem written_records_nondecreasing_witness :
    [dupRecord, dupRecord] = [dupRecord, dupRecord] ∧
      List.Chain' (fun a b => a.chrom = b.chrom → a.pos ≤ b.pos) [dupRecord, dupRecord] :=
  written_records_nondecreasing [dupRecord, dupRecord] [dupRecord, dupRecord] (by decide)

/-- C8: `resolve` fails with `UnknownContigError` exactly when the contig is
absent from the reference index, fails with `PositionOutOfRangeError`
exactly when `position + span - 1` exceeds the contig length, and otherwise
returns the reference bases at the locus. -/
theorem resolve_contract (ref : RefIndex) (contig : String) (position span : Nat) :
    (resolve ref contig position span = .error (.unknownContig contig) ↔
      hasContig ref contig = false)
  ∧ (resolve ref contig position span =
        .error (.positionOutOfRange contig position span) ↔
      hasContig ref contig = true ∧ contigLength ref contig < position + span - 1)
  ∧ (hasContig ref contig = true → position + span - 1 ≤ contigLength ref contig →
      resolve ref contig position span =
        .ok (String.mk (((refSeq ref contig).data.drop (position - 1)).take span))) := by
  unfold resolve hasContig contigLength refSeq
  cases hfind : assocFind ref.contigs contig with
  | none => simp
  | some seq =>
    simp only [Option.isSome_some, Option.getD_some]
    by_cases hlen : seq.length < position + span - 1
    · rw [if_pos hlen]
      refine ⟨by simp, by simp; omega, fun _ hle => absurd hlen (Nat.not_lt.mpr hle)⟩
    · rw [if_neg hlen]
      simp only [not_lt] at hlen
      simp [hlen, Nat.not_lt.mpr hlen]

/-- Witness for C8: resolving `chr1:100` span 1 in the scenario reference. -/
theorem resolve_contract_witness :
    resolve refScenario "chr1" 100 1 =
      .ok (String.mk (((refSeq refScenario "chr1").data.drop 99).take 1)) :=
  (resolve_contract refScenario "chr1" 100 1).2.2 (by decide) (by decide)

/-- C9: the pipeline is a pure function of the input lines, the reference,
and the configuration, so two runs on equal inputs produce byte-identical
output streams. -/
theorem pipeline_deterministic (cfg cfg' : VarConfig) (ref ref' : RefIndex)
    (ls ls' : List String) (h1 : cfg = cfg') (h2 : ref = ref') (h3 : ls = ls') :
    pipelineOutput cfg ref ls = pipelineOutput cfg' ref' ls' := by
  rw [h1, h2, h3]

/-- Witness for C9 on the concrete scenario input. -/
theorem pipeline_deterministic_witness :
    pipelineOutput cfgScenario refScenario ["chr1\t100\t50\t0\t0\t0\t45\t0\t0"] =
      pipelineOutput cfgScenario refScenario ["chr1\t100\t50\t0\t0\t0\t45\t0\t0"] :=
  pipeline_deterministic cfgScenario cfgScenario refScenario refScenario _ _ rfl rfl rfl

/-- C10: `setup.py` reads `README.md` before `setuptools.setup` is invoked;
when the file is missing the script fails with a file-not-found error and
`setup` is never called, and when it exists `setup` receives its text as
`long_description`. -/
theorem setup_reads_readme_first (env : SetupEnv) :
    (env.readmeText = none →
      runSetupScript env = .fileNotFound "README.md" ∧
        ∀ args, runSetupScript env ≠ .setupCalled args)
  ∧ (∀ t, env.readmeText = some t →
      runSetupScript env =
        .setupCalled ⟨"mutpos2vcf", "0.1.0", t, "text/markdown", ["mutpos2vcf"]⟩) := by
  constructor
  · intro h
    have : runSetupScript env = .fileNotFound "README.md" := by
      unfold runSetupScript readText
      rw [if_pos rfl, h]
    exact ⟨this, fun args hargs => by rw [this] at hargs; cases hargs⟩
  · intro t h
    unfold runSetupScript readText
    rw [if_pos rfl, h]

/-- C1: for a non-reference allele with non-zero observed count at a covered
position, the engine marks it a candidate exactly when
`fraction ≥ min_allele_fraction` and `count ≥ min_supporting_count` and
`depth ≥ min_depth`; the allele-fraction threshold is inclusive: a count of
exactly `depth × min_allele_fraction` is called, while any count strictly
below that product (in particular one unit less) is not. -/
theorem candidate_iff_thresholds (cfg : VarConfig) (rec : MutposRecord)
    (refBase a : String) (c : Nat)
    (hmem : (a, c) ∈ rec.counts) (hnodup : (rec.counts.map Prod.fst).Nodup)
    (hne : a ≠ refBase) (hc : 0 < c) (hd : 0 < rec.depth) :
    (a ∈ (call cfg rec refBase).alt_alleles ↔
      (cfg.min_allele_fraction ≤ fraction c rec.depth ∧
        cfg.min_supporting_count ≤ c ∧ cfg.min_depth ≤ rec.depth))
  ∧ ((c : ℚ) = (rec.depth : ℚ) * cfg.min_allele_fraction →
      cfg.min_supporting_count ≤ c → cfg.min_depth ≤ rec.depth →
      a ∈ (call cfg rec refBase).alt_alleles)
  ∧ ((c : ℚ) < (rec.depth : ℚ) * cfg.min_allele_fraction →
      a ∉ (call cfg rec refBase).alt_alleles) := by
  have hdne : rec.depth ≠ 0 := Nat.pos_iff_ne_zero.mp hd
  have hdq : (0 : ℚ) < (rec.depth : ℚ) := by exact_mod_cast hd
  have hql : ∀ q : String × Nat,
      (q.1 != refBase && q.2 != 0 && isCandidate cfg rec.depth q.2) = true ↔
      (q.1 ≠ refBase ∧ q.2 ≠ 0 ∧
        (cfg.min_allele_fraction ≤ fraction q.2 rec.depth ∧
          cfg.min_supporting_count ≤ q.2 ∧ cfg.min_depth ≤ rec.depth)) := by
    intro q
    simp [isCandidate, Bool.and_eq_true, bne_iff_ne, decide_eq_true_eq, and_assoc]
  have key : a ∈ (call cfg rec refBase).alt_alleles ↔
      a ∈ (List.insertionSort altBefore
        ((rec.counts.filter fun p => p.1 != refBase && p.2 != 0 &&
            isCandidate cfg rec.depth p.2).map
          fun p => (p.1, fraction p.2 rec.depth))).map Prod.fst := by
    unfold call
    rw [if_neg hdne]
    exact Iff.rfl
  have hmapmap : ((rec.counts.filter fun p => p.1 != refBase && p.2 != 0 &&
      isCandidate cfg rec.depth p.2).map
        (fun p => (p.1, fraction p.2 rec.depth))).map Prod.fst =
      (rec.counts.filter fun p => p.1 != refBase && p.2 != 0 &&
        isCandidate cfg rec.depth p.2).map Prod.fst := by
    simp
  have hiff : a ∈ (call cfg rec refBase).alt_alleles ↔
      (cfg.min_allele_fraction ≤ fraction c rec.depth ∧
        cfg.min_supporting_count ≤ c ∧ cfg.min_depth ≤ rec.depth) := by
    rw [key, ((List.perm_insertionSort altBefore _).map Prod.fst).mem_iff, hmapmap]
    constructor
    · intro hmap
      obtain ⟨p, hp, hp1⟩ := List.mem_map.mp hmap
      obtain ⟨hpc, hpred⟩ := List.mem_filter.mp hp
      have hpmem : (a, p.2) ∈ rec.counts := by
        rw [← hp1]
        exact hpc
      have hc2 : p.2 = c := nodup_key_unique hnodup hpmem hmem
      have hcond := (hql p).mp hpred
      rw [hc2] at hcond
      exact hcond.2.2
    · intro hconds
      exact List.mem_map.mpr
        ⟨(a, c),
          List.mem_filter.mpr ⟨hmem, (hql (a, c)).mpr ⟨hne, Nat.pos_iff_ne_zero.mp hc, hconds⟩⟩,
          rfl⟩
  refine ⟨hiff, ?_, ?_⟩
  · intro heq hsc hdep
    apply hiff.mpr
    refine ⟨?_, hsc, hdep⟩
    rw [fraction_eq_div, heq, mul_div_cancel_left₀ _ (ne_of_gt hdq)]
  · intro hlt hmemalt
    have hle := (hiff.mp hmemalt).1
    rw [fraction_eq_div] at hle
    have := (le_div_iff₀ hdq).mp hle
    rw [mul_comm] at hlt
    exact absurd hlt (not_lt.mpr this)

/-- Witness for C1: a count of forty at depth fifty sits exactly on the 0.8
threshold and is marked a candidate. -/
theorem candidate_iff_thresholds_witness :
    "T" ∈ (call cfgScenario boundaryRecord "A").alt_alleles :=
  (candidate_iff_thresholds cfgScenario boundaryRecord "A" "T" 40
      (by decide) (by decide) (by decide) (by decide) (by decide)).1.mpr
    ⟨by decide, by decide, by decide⟩

/-- C4: the emitted alt alleles of one decision are ordered by strictly
descending fraction with ties broken by ascending lexicographic order of the
allele symbol, and the tie scenario `{A: 30, T: 30}` at depth 100 with
`min_allele_fraction = 0.2` yields ALT order `A,T` for either input order. -/
theorem multiallelic_ordering (cfg : VarConfig) (rec : MutposRecord) (refBase : String)
    (hnodup : (rec.counts.map Prod.fst).Nodup) :
    List.Pairwise (fun x y : String × ℚ => y.2 < x.2 ∨ (x.2 = y.2 ∧ x.1.data < y.1.data))
      (call cfg rec refBase).allele_fractions
  ∧ (call cfg rec refBase).alt_alleles = (call cfg rec refBase).allele_fractions.map Prod.fst
  ∧ (call cfgTie ⟨"chr2", 7, 100, [("A", 30), ("T", 30)]⟩ "C").alt_alleles = ["A", "T"]
  ∧ (call cfgTie ⟨"chr2", 7, 100, [("T", 30), ("A", 30)]⟩ "C").alt_alleles = ["A", "T"] := by
  refine ⟨?_, ?_, by decide, by decide⟩
  · by_cases hd : rec.depth = 0
    · have : (call cfg rec refBase).allele_fractions = [] := by
        unfold call
        rw [if_pos hd]
      rw [this]
      exact List.Pairwise.nil
    · have hfr : (call cfg rec refBase).allele_fractions =
          List.insertionSort altBefore
            ((rec.counts.filter fun p => p.1 != refBase && p.2 != 0 &&
                isCandidate cfg rec.depth p.2).map
              fun p => (p.1, fraction p.2 rec.depth)) := by
        unfold call
        rw [if_neg hd]
        rfl
      rw [hfr]
      have hsorted := List.sorted_insertionSort altBefore
        ((rec.counts.filter fun p => p.1 != refBase && p.2 != 0 &&
            isCandidate cfg rec.depth p.2).map
          fun p => (p.1, fraction p.2 rec.depth))
      have h1 : ((rec.counts.filter fun p => p.1 != refBase && p.2 != 0 &&
          isCandidate cfg rec.depth p.2).map Prod.fst).Nodup :=
        hnodup.sublist ((List.filter_sublist _).map Prod.fst)
      have h2 : (((rec.counts.filter fun p => p.1 != refBase && p.2 != 0 &&
          isCandidate cfg rec.depth p.2).map
            (fun p => (p.1, fraction p.2 rec.depth))).map Prod.fst).Nodup := by
        simpa using h1
      have h3 : ((List.insertionSort altBefore
          ((rec.counts.filter fun p => p.1 != refBase && p.2 != 0 &&
              isCandidate cfg rec.depth p.2).map
            fun p => (p.1, fraction p.2 rec.depth))).map Prod.fst).Nodup :=
        (((List.perm_insertionSort altBefore _).map Prod.fst).nodup_iff).mpr h2
      have h4 := List.pairwise_map.mp h3
      refine (hsorted.and h4).imp ?_
      rintro a b ⟨hab | ⟨heq, hle⟩, hne⟩
      · exact Or.inl hab
      · exact Or.inr ⟨heq, lt_of_le_of_ne hle fun hdata => hne (string_data_inj hdata)⟩
  · by_cases hd : rec.depth = 0
    · unfold call
      rw [if_pos hd]
      rfl
    · unfold call
      rw [if_neg hd]

/-- Witness for C4 at the concrete tie record. -/
theorem multiallelic_ordering_witness :
    (call cfgTie ⟨"chr2", 7, 100, [("A", 30), ("T", 30)]⟩ "C").alt_alleles = ["A", "T"] :=
  (multiallelic_ordering cfgTie ⟨"chr2", 7, 100, [("A", 30), ("T", 30)]⟩ "C"
    (by decide)).2.2.1

/-- C6: `write_record` fails with `UnsortedInputError` exactly when the
incoming record violates non-decreasing (contig-first-seen-order, position)
order relative to the previously written record; successful writes emit the
record verbatim and whole successfully written streams are emitted verbatim
(no re-ordering, no buffering). -/
theorem write_record_unsorted_iff (st : WriterState) (r : VcfRecord) (hwf : WriterWF st) :
    ((∃ e, writeRecord st r = .error e) ↔ violatesOrder st r)
  ∧ (∀ st' r', writeRecord st r = .ok (st', r') → r' = r)
  ∧ (∀ rs out, writeAll st rs = .ok out → out = rs) := by
  refine ⟨?_, fun st' r' h => (writeRecord_ok h).1, fun rs out h => writeAll_ok_eq st rs out h⟩
  cases hlast : st.last with
  | none =>
    have hok : okToWrite st r = true := by
      unfold okToWrite
      rw [hlast]
    have hnov : ¬ violatesOrder st r := by
      unfold violatesOrder
      rw [hlast]
      exact not_false
    constructor
    · rintro ⟨e, he⟩
      unfold writeRecord at he
      rw [if_pos hok] at he
      cases he
    · intro hv
      exact absurd hv hnov
  | some cp =>
    obtain ⟨c₀, p₀⟩ := cp
    obtain ⟨pre, hpre⟩ := hwf.2 c₀ p₀ hlast
    have hnd : st.seen.Nodup := hwf.1
    have hcpre : c₀ ∉ pre := by
      rw [hpre] at hnd
      intro hmem
      exact (List.nodup_append.mp hnd).2.2 hmem (List.mem_singleton.mpr rfl)
    have hidx₀ : firstSeenIdx st.seen c₀ = pre.length := by
      rw [hpre]
      exact firstSeenIdx_last pre c₀ hcpre
    have hviol : violatesOrder st r ↔ keyLt st.seen r.chrom r.pos c₀ p₀ := by
      unfold violatesOrder
      rw [hlast]
    by_cases hc : r.chrom = c₀
    · have hkey : keyLt st.seen r.chrom r.pos c₀ p₀ ↔ r.pos < p₀ := by
        unfold keyLt
        rw [hc]
        simp
      have hokiff : okToWrite st r = true ↔ p₀ ≤ r.pos := by
        unfold okToWrite
        rw [hlast]
        dsimp only
        rw [if_pos hc]
        simp
      constructor
      · rintro ⟨e, he⟩
        rw [hviol, hkey]
        by_cases hop : p₀ ≤ r.pos
        · exfalso
          unfold writeRecord at he
          rw [if_pos (hokiff.mpr hop)] at he
          cases he
        · omega
      · intro hv
        rw [hviol, hkey] at hv
        have hfail : okToWrite st r = false := by
          cases hob : okToWrite st r
          · rfl
          · exact absurd (hokiff.mp hob) (by omega)
        exact ⟨⟨r.chrom, r.pos⟩, writeRecord_error hfail⟩
    · by_cases hm : r.chrom ∈ st.seen
      · have hmpre : r.chrom ∈ pre := by
          rw [hpre] at hm
          rcases List.mem_append.mp hm with h | h
          · exact h
          · exact absurd (List.mem_singleton.mp h) hc
        have hidxr : firstSeenIdx st.seen r.chrom < pre.length := by
          rw [hpre, firstSeenIdx_append_of_mem pre [c₀] r.chrom hmpre]
          exact firstSeenIdx_lt_of_mem pre r.chrom hmpre
        have hkey : keyLt st.seen r.chrom r.pos c₀ p₀ := Or.inl (by rw [hidx₀]; exact hidxr)
        have hfail : okToWrite st r = false := by
          unfold okToWrite
          rw [hlast]
          dsimp only
          rw [if_neg hc]
          simp [hm]
        constructor
        · intro _
          exact hviol.mpr hkey
        · intro _
          exact ⟨⟨r.chrom, r.pos⟩, writeRecord_error hfail⟩
      · have hidxr : firstSeenIdx st.seen r.chrom = pre.length + 1 := by
          rw [firstSeenIdx_of_not_mem st.seen r.chrom hm, hpre]
          simp
        have hnokey : ¬ keyLt st.seen r.chrom r.pos c₀ p₀ := by
          unfold keyLt
          rw [hidx₀, hidxr]
          omega
        have hok : okToWrite st r = true := by
          unfold okToWrite
          rw [hlast]
          dsimp only
          rw [if_neg hc]
          simp [hm]
        constructor
        · rintro ⟨e, he⟩
          unfold writeRecord at he
          rw [if_pos hok] at he
          cases he
        · intro hv
          exact absurd (hviol.mp hv) hnokey

/-- Witness for C6: a record at `chr1:50` after `chr1:100` is rejected. -/
theorem write_record_unsorted_iff_witness :
    ∃ e, writeRecord ⟨["chr1"], some ("chr1", 100)⟩ earlierRecord = .error e :=
  (write_record_unsorted_iff ⟨["chr1"], some ("chr1", 100)⟩ earlierRecord
      ⟨by decide, fun c₀ p₀ h => by
        injection h with h2
        refine ⟨[], ?_⟩
        rw [List.nil_append, show c₀ = "chr1" from (congrArg Prod.fst h2).symm]⟩).1.mpr
    (Or.inr ⟨rfl, by decide⟩)

/-- C7: `parse` raises `MalformedRecordError` carrying the offending line
number and raw text exactly when the line is not skipped and violates
validation, and blank or comment-prefixed lines are skipped without error
and produce no record. -/
theorem parse_error_iff (n : Nat) (raw : String) (e : MalformedRecordError) :
    (parseLine n raw = .error e ↔
      skippable raw = false ∧ lineValid raw = false ∧ e = ⟨n, raw⟩)
  ∧ (skippable raw = true → parseLine n raw = .ok none) := by
  constructor
  · by_cases hs : skippable raw = true
    · simp [parseLine, hs]
    · have hs' : skippable raw = false := by rwa [Bool.not_eq_true] at hs
      unfold parseLine lineValid
      rw [if_neg hs]
      by_cases hlen : (fields raw).length = 9
      · rw [if_pos hlen, if_pos hlen, parseFields_error_iff]
        simp [hs']
      · rw [if_neg hlen, if_neg hlen]
        simp [hs', eq_comm]
  · intro h
    unfold parseLine
    rw [if_pos h]

/-- Witness for C7: a malformed numeric field errors with the line context,
and a comment line is skipped. -/
theorem parse_error_iff_witness :
    (parseLine 3 "chr1\tx\t50\t0\t0\t0\t45\t0\t0" =
      .error ⟨3, "chr1\tx\t50\t0\t0\t0\t45\t0\t0"⟩) ∧
    parseLine 7 "# comment" = .ok none :=
  ⟨(parse_error_iff 3 "chr1\tx\t50\t0\t0\t0\t45\t0\t0"
      ⟨3, "chr1\tx\t50\t0\t0\t0\t45\t0\t0"⟩).1.mpr ⟨by decide, by decide, rfl⟩,
   (parse_error_iff 7 "# comment" ⟨7, "# comment"⟩).2 (by decide)⟩

/-- Witness for C10: an environment without `README.md` and one with it. -/
theorem setup_reads_readme_first_witness :
    (runSetupScript ⟨none⟩ = .fileNotFound "README.md" ∧
      ∀ args, runSetupScript ⟨none⟩ ≠ .setupCalled args) ∧
    runSetupScript ⟨some "docs"⟩ =
      .setupCalled ⟨"mutpos2vcf", "0.1.0", "docs", "text/markdown", ["mutpos2vcf"]⟩ :=
  ⟨(setup_reads_readme_first ⟨none⟩).1 rfl,
   (setup_reads_readme_first ⟨some "docs"⟩).2 "docs" rfl⟩

end Mutpos2Vcf
